import Mathlib

/-!
Verification of the conversational relay bot in `src/main.py`.

The embedding models the mutable module-level state of the Python program
explicitly: the per-user message store `user_messages` (a `defaultdict` of
`deque(maxlen=10)`) becomes a `Store`, and each source function becomes a
pure function from a store to a store plus its observable outputs.  The
external completion provider is modelled by an `Except String String`
outcome parameter: `Except.ok r` is a successful call whose first choice
has content `r`, `Except.error e` is any raised exception with detail `e`.
-/

/-- One role-tagged message as stored and as sent to the API:
a Python dict `{"role": ..., "content": ...}`. -/
structure Entry where
  role : String
  content : String
deriving DecidableEq, Repr

/-- The module-level `user_messages : Dict[int, Deque]`.  `none` means the
key is absent from the dict (defaultdict semantics supply an empty deque
on access). -/
def Store : Type := Int → Option (List Entry)

/-- Reading `user_messages[user_id]` as a list: an absent key behaves as
the empty deque the defaultdict would create. -/
def getHist (s : Store) (user_id : Int) : List Entry :=
  (s user_id).getD []

/-- Writing back one user's history, leaving all other keys unchanged. -/
def setHist (s : Store) (user_id : Int) (h : List Entry) : Store :=
  fun u => if u = user_id then some h else s u

/-- The empty `defaultdict` at process start. -/
def emptyStore : Store := fun _ => none

/-- `deque(maxlen=10).append(e)`: append on the right, discarding from the
left whatever exceeds the capacity of 10. -/
def appendBounded (h : List Entry) (e : Entry) : List Entry :=
  (h ++ [e]).drop (h.length + 1 - 10)

/-- `user_messages[user_id].append(e)` as a store transformer. -/
def storeAppend (s : Store) (user_id : Int) (e : Entry) : Store :=
  setHist s user_id (appendBounded (getHist s user_id) e)

/-- The fixed system message prepended to every API request
(`src/main.py` lines 70-73). -/
def system_message : Entry :=
  { role := "system"
    content := "Ты полезный ассистент. Отвечай на русском языке." }

/-- `format_messages_for_api` (`src/main.py` lines 50-75): appends the new
user message to the caller's history, then returns the system message
followed by the full current history.  Returns the mutated store together
with the assembled request list. -/
def format_messages_for_api (s : Store) (user_id : Int) (new_message : String) :
    Store × List Entry :=
  let s1 := storeAppend s user_id { role := "user", content := new_message }
  (s1, system_message :: getHist s1 user_id)

/-- `DEFAULT_MODEL = os.getenv("OPENROUTER_MODEL", "google/gemini-pro-1.5")`
(`src/main.py` line 43); `env` is the value of the environment variable, if
set. -/
def DEFAULT_MODEL (env : Option String) : String :=
  env.getD "google/gemini-pro-1.5"

/-- The keyword arguments of the `client.chat.completions.create` call
(`src/main.py` lines 94-98). -/
structure ChatRequest where
  model : String
  messages : List Entry
  temperature : ℚ
deriving DecidableEq, Repr

/-- The fixed apology returned when the provider call fails
(`src/main.py` line 111). -/
def apology_message : String :=
  "Извините, произошла ошибка при обработке вашего запроса. Попробуйте позже."

/-- Result of one `get_ai_response` run: the store afterwards, the string
returned to the caller, and the request that was submitted to the
provider. -/
structure ReplyResult where
  store : Store
  reply : String
  request : ChatRequest

/-- `get_ai_response` (`src/main.py` lines 78-111): formats the messages
(appending the user entry), calls the provider with the configured model
and temperature 0.7, appends the assistant reply on success, and on any
exception returns the fixed apology without touching the history again. -/
def get_ai_response (env : Option String) (s : Store) (user_id : Int)
    (user_message : String) (outcome : Except String String) : ReplyResult :=
  let fm := format_messages_for_api s user_id user_message
  let req : ChatRequest :=
    { model := DEFAULT_MODEL env, messages := fm.2, temperature := 7/10 }
  match outcome with
  | Except.ok r =>
      { store := storeAppend fm.1 user_id { role := "assistant", content := r }
        reply := r
        request := req }
  | Except.error _ =>
      { store := fm.1
        reply := apology_message
        request := req }

/-- `cmd_start`'s history mutation (`src/main.py` lines 120-124): clear the
deque only when the key is already present; otherwise leave the dict
untouched. -/
def clearHistory (s : Store) (user_id : Int) : Store :=
  match s user_id with
  | some _ => setHist s user_id []
  | none => s

/-- The static corrective prompt for messages without text
(`src/main.py` line 160). -/
def prompt_message : String := "Пожалуйста, отправьте текстовое сообщение."

/-- Result of one `handle_text_message` run: the store afterwards, the
reply sent back, and the provider request if one was made. -/
structure HandleResult where
  store : Store
  reply : String
  request : Option ChatRequest

/-- `handle_text_message` (`src/main.py` lines 152-173): a `None` or empty
`message.text` is answered with the static prompt and nothing else
happens; otherwise the reply orchestrator runs and its answer is sent. -/
def handle_text_message (env : Option String) (s : Store) (user_id : Int)
    (text : Option String) (outcome : Except String String) : HandleResult :=
  match text with
  | none => { store := s, reply := prompt_message, request := none }
  | some t =>
      if t = "" then { store := s, reply := prompt_message, request := none }
      else
        let r := get_ai_response env s user_id t outcome
        { store := r.store, reply := r.reply, request := some r.request }

/-- The last `n` elements of a list, in order. -/
def lastN (n : Nat) (l : List Entry) : List Entry :=
  l.drop (l.length - n)

/-- Stores reachable from process start through the two mutating handlers:
any text message (with any provider outcome) and the `/start` command.
`cmd_help` never touches the store. -/
inductive Reachable : Store → Prop where
  | init : Reachable emptyStore
  | msg (env : Option String) (user_id : Int) (text : Option String)
      (outcome : Except String String) {s : Store} :
      Reachable s → Reachable (handle_text_message env s user_id text outcome).store
  | start (user_id : Int) {s : Store} :
      Reachable s → Reachable (clearHistory s user_id)

-- Basic lemmas about the bounded append.

theorem length_appendBounded (h : List Entry) (e : Entry) :
    (appendBounded h e).length = min (h.length + 1) 10 := by
  simp [appendBounded]
  omega

theorem appendBounded_eq_drop (h : List Entry) (e : Entry) :
    appendBounded h e = (h ++ [e]).drop (h.length + 1 - 10) := rfl

theorem getHist_setHist (s : Store) (u v : Int) (h : List Entry) :
    getHist (setHist s u h) v = if v = u then h else getHist s v := by
  by_cases hvu : v = u <;> simp [getHist, setHist, hvu]

theorem getHist_storeAppend_self (s : Store) (u : Int) (e : Entry) :
    getHist (storeAppend s u e) u = appendBounded (getHist s u) e := by
  simp [storeAppend, getHist_setHist]

theorem foldl_appendBounded_eq_drop (es : List Entry) :
    ∀ h : List Entry, h.length ≤ 10 →
      es.foldl appendBounded h = (h ++ es).drop (h.length + es.length - 10) := by
  induction es with
  | nil =>
      intro h hh
      simp [Nat.sub_eq_zero_of_le hh]
  | cons e es ih =>
      intro h hh
      rw [List.foldl_cons,
        ih (appendBounded h e) (by rw [length_appendBounded]; omega)]
      have hsplit : (h ++ [e]).drop (h.length + 1 - 10) ++ es
          = ((h ++ [e]) ++ es).drop (h.length + 1 - 10) :=
        (List.drop_append_of_le_length (by simp; omega)).symm
      rw [appendBounded_eq_drop, hsplit,
        List.drop_drop, List.append_assoc, List.singleton_append]
      congr 1
      simp
      omega

theorem appendBounded_getLast (h : List Entry) (e : Entry) :
    (appendBounded h e).getLast? = some e := by
  have hsplit : (h ++ [e]).drop (h.length + 1 - 10)
      = h.drop (h.length + 1 - 10) ++ [e] :=
    List.drop_append_of_le_length (by omega)
  rw [appendBounded_eq_drop, hsplit]
  exact List.getLast?_concat _

theorem lastN_of_drop (l : List Entry) (k n : Nat) (hk : k + n ≤ l.length) :
    lastN n (l.drop k) = lastN n l := by
  unfold lastN
  rw [List.drop_drop, List.length_drop]
  congr 1
  omega

theorem lastN_one_appendBounded (h : List Entry) (u : Entry) :
    lastN 1 (appendBounded h u) = [u] := by
  rw [appendBounded_eq_drop,
    lastN_of_drop _ _ _ (by simp only [List.length_append, List.length_singleton]; omega)]
  unfold lastN
  simp

theorem lastN_two_appendBounded (h : List Entry) (u a : Entry) :
    lastN 2 (appendBounded (appendBounded h u) a) = [u, a] := by
  have h1 : 1 ≤ (appendBounded h u).length := by
    rw [length_appendBounded]; omega
  rw [appendBounded_eq_drop (appendBounded h u) a,
    lastN_of_drop _ _ _ (by simp only [List.length_append, List.length_singleton]; omega)]
  unfold lastN
  have harith : (appendBounded h u).length + 1 - 2 = (appendBounded h u).length - 1 := by
    omega
  rw [List.length_append, List.length_singleton, harith,
    List.drop_append_of_le_length (by omega)]
  have hlast := lastN_one_appendBounded h u
  unfold lastN at hlast
  rw [hlast]
  rfl

theorem mem_appendBounded {x : Entry} {h : List Entry} {e : Entry}
    (hm : x ∈ appendBounded h e) : x ∈ h ∨ x = e := by
  rw [appendBounded_eq_drop] at hm
  have hx := List.mem_of_mem_drop hm
  simpa using hx

/-- Every entry of every history in the store is user- or assistant-tagged. -/
def RoleOK (s : Store) : Prop :=
  ∀ u : Int, ∀ e ∈ getHist s u, e.role = "user" ∨ e.role = "assistant"

theorem roleOK_storeAppend {s : Store} (hs : RoleOK s) (uid : Int) (e : Entry)
    (he : e.role = "user" ∨ e.role = "assistant") :
    RoleOK (storeAppend s uid e) := by
  intro u x hx
  unfold storeAppend at hx
  rw [getHist_setHist] at hx
  by_cases hu : u = uid
  · rw [if_pos hu] at hx
    rcases mem_appendBounded hx with hmem | hxe
    · exact hs uid x hmem
    · subst hxe; exact he
  · rw [if_neg hu] at hx
    exact hs u x hx

theorem roleOK_clearHistory {s : Store} (hs : RoleOK s) (uid : Int) :
    RoleOK (clearHistory s uid) := by
  intro u x hx
  unfold clearHistory at hx
  cases hsu : s uid with
  | none => rw [hsu] at hx; exact hs u x hx
  | some l =>
      rw [hsu] at hx
      rw [getHist_setHist] at hx
      by_cases hu : u = uid
      · rw [if_pos hu] at hx; simp at hx
      · rw [if_neg hu] at hx; exact hs u x hx

theorem roleOK_get_ai_response {s : Store} (hs : RoleOK s) (env : Option String)
    (uid : Int) (msg : String) (outcome : Except String String) :
    RoleOK (get_ai_response env s uid msg outcome).store := by
  cases outcome with
  | ok r =>
      exact roleOK_storeAppend
        (roleOK_storeAppend hs uid _ (Or.inl rfl)) uid _ (Or.inr rfl)
  | error e =>
      exact roleOK_storeAppend hs uid _ (Or.inl rfl)

theorem roleOK_handle {s : Store} (hs : RoleOK s) (env : Option String)
    (uid : Int) (text : Option String) (outcome : Except String String) :
    RoleOK (handle_text_message env s uid text outcome).store := by
  cases text with
  | none => exact hs
  | some t =>
      by_cases ht : t = ""
      · simp only [handle_text_message, if_pos ht]
        exact hs
      · simp only [handle_text_message, if_neg ht]
        exact roleOK_get_ai_response hs env uid t outcome

theorem roleOK_emptyStore : RoleOK emptyStore := by
  intro u x hx
  simp [getHist, emptyStore] at hx

theorem roleOK_reachable {s : Store} (hs : Reachable s) : RoleOK s := by
  induction hs with
  | init => exact roleOK_emptyStore
  | msg env uid text outcome _ ih => exact roleOK_handle ih env uid text outcome
  | start uid _ ih => exact roleOK_clearHistory ih uid

-- Concrete data used by witnesses.

/-- Twelve distinct user entries, enough to overflow the capacity of 10. -/
def fifoDemo : List Entry :=
  (List.range 12).map (fun n => { role := "user", content := toString n })

/-- Exactly ten user entries: a history at capacity. -/
def fullDemo : List Entry :=
  (List.range 10).map (fun n => { role := "user", content := toString n })

/-- C1: for every sequence of appends to one user's history the length
never exceeds 10, the surviving entries are exactly the most recent ones
in order (strict FIFO), and an append at capacity evicts exactly the
oldest entry before appending. -/
theorem claim_history_bounded_fifo (es h : List Entry) (e : Entry) :
    (es.foldl appendBounded []).length ≤ 10 ∧
    es.foldl appendBounded [] = es.drop (es.length - 10) ∧
    (h.length = 10 → appendBounded h e = h.tail ++ [e]) := by
  refine ⟨?_, ?_, ?_⟩
  · rw [foldl_appendBounded_eq_drop es [] (by simp)]
    simp
    omega
  · rw [foldl_appendBounded_eq_drop es [] (by simp)]
    simp
  · intro h10
    have hone : h.length + 1 - 10 = 1 := by omega
    rw [appendBounded_eq_drop, hone,
      List.drop_append_of_le_length (by omega), List.drop_one]

/-- Witness for C1 at twelve appends and at a full ten-entry history. -/
theorem claim_history_bounded_fifo_witness :
    fullDemo.length = 10 ∧
    (fifoDemo.foldl appendBounded []).length ≤ 10 ∧
    fifoDemo.foldl appendBounded [] = fifoDemo.drop (fifoDemo.length - 10) ∧
    appendBounded fullDemo { role := "user", content := "x" }
      = fullDemo.tail ++ [{ role := "user", content := "x" }] :=
  ⟨by decide,
   (claim_history_bounded_fifo fifoDemo fullDemo { role := "user", content := "x" }).1,
   (claim_history_bounded_fifo fifoDemo fullDemo { role := "user", content := "x" }).2.1,
   (claim_history_bounded_fifo fifoDemo fullDemo { role := "user", content := "x" }).2.2
     (by decide)⟩

/-- C2: on a provider failure, `get_ai_response` returns the fixed apology,
the store is exactly the one left by `format_messages_for_api` (so no
assistant entry was appended), and the user's history still ends with the
user entry appended in step 1. -/
theorem claim_failure_path (env : Option String) (s : Store) (uid : Int)
    (msg err : String) :
    (get_ai_response env s uid msg (Except.error err)).reply = apology_message ∧
    (get_ai_response env s uid msg (Except.error err)).store
      = (format_messages_for_api s uid msg).1 ∧
    (getHist (get_ai_response env s uid msg (Except.error err)).store uid).getLast?
      = some { role := "user", content := msg } := by
  refine ⟨rfl, rfl, ?_⟩
  have hst : (get_ai_response env s uid msg (Except.error err)).store
      = storeAppend s uid { role := "user", content := msg } := rfl
  rw [hst, getHist_storeAppend_self, appendBounded_getLast]

/-- C3: on a provider success returning `R`, `get_ai_response` returns `R`
and the user's history now ends with the user entry for the inbound
message immediately followed by the assistant entry carrying `R`. -/
theorem claim_success_path (env : Option String) (s : Store) (uid : Int)
    (msg R : String) :
    (get_ai_response env s uid msg (Except.ok R)).reply = R ∧
    lastN 2 (getHist (get_ai_response env s uid msg (Except.ok R)).store uid)
      = [{ role := "user", content := msg },
         { role := "assistant", content := R }] := by
  refine ⟨rfl, ?_⟩
  have hst : (get_ai_response env s uid msg (Except.ok R)).store
      = storeAppend (storeAppend s uid { role := "user", content := msg }) uid
          { role := "assistant", content := R } := rfl
  rw [hst, getHist_storeAppend_self, getHist_storeAppend_self,
    lastN_two_appendBounded]

/-- C4: the assembled request is the system entry followed by the full
current history of the user (which already contains the new message);
for a user with empty history and text `T` it is exactly
`[system_message, user-entry T]`. -/
theorem claim_request_assembly (s : Store) (uid : Int) (T : String) :
    (format_messages_for_api s uid T).2
      = system_message :: getHist (format_messages_for_api s uid T).1 uid ∧
    (getHist s uid = [] →
      (format_messages_for_api s uid T).2
        = [system_message, { role := "user", content := T }]) := by
  constructor
  · rfl
  · intro h0
    have hs1 : (format_messages_for_api s uid T).2
        = system_message
          :: getHist (storeAppend s uid { role := "user", content := T }) uid := rfl
    rw [hs1, getHist_storeAppend_self, h0]
    rfl

/-- Witness for C4 on the empty store. -/
theorem claim_request_assembly_witness :
    getHist emptyStore 7 = [] ∧
    (format_messages_for_api emptyStore 7 "Привет").2
      = system_message
        :: getHist (format_messages_for_api emptyStore 7 "Привет").1 7 ∧
    (format_messages_for_api emptyStore 7 "Привет").2
      = [system_message, { role := "user", content := "Привет" }] :=
  ⟨rfl, (claim_request_assembly emptyStore 7 "Привет").1,
   (claim_request_assembly emptyStore 7 "Привет").2 rfl⟩

/-- C5: whatever the provider outcome, `get_ai_response` returns a string
to its caller: the generated text on success, the fixed apology on any
failure.  No outcome makes it signal an error. -/
theorem claim_always_text (env : Option String) (s : Store) (uid : Int)
    (msg : String) (outcome : Except String String) :
    (get_ai_response env s uid msg outcome).reply
      = match outcome with
        | Except.ok r => r
        | Except.error _ => apology_message := by
  cases outcome <;> rfl

/-- Eleven question/answer turns from one user, all answered successfully. -/
def elevenTurns : List (String × String) :=
  [("q1", "r1"), ("q2", "r2"), ("q3", "r3"), ("q4", "r4"), ("q5", "r5"),
   ("q6", "r6"), ("q7", "r7"), ("q8", "r8"), ("q9", "r9"), ("q10", "r10"),
   ("q11", "r11")]

/-- The store after user 1 sends the eleven messages of `elevenTurns` and
each provider call succeeds with the paired reply. -/
def elevenStore : Store :=
  elevenTurns.foldl
    (fun s p => (get_ai_response none s 1 p.1 (Except.ok p.2)).store)
    emptyStore

/-- C6: after 11 successful exchanges the history holds exactly the last
10 entries — the five most recent user/assistant pairs — with everything
older evicted. -/
theorem claim_eleven_messages :
    getHist elevenStore 1
      = [{ role := "user", content := "q7" },
         { role := "assistant", content := "r7" },
         { role := "user", content := "q8" },
         { role := "assistant", content := "r8" },
         { role := "user", content := "q9" },
         { role := "assistant", content := "r9" },
         { role := "user", content := "q10" },
         { role := "assistant", content := "r10" },
         { role := "user", content := "q11" },
         { role := "assistant", content := "r11" }] ∧
    (getHist elevenStore 1).length = 10 := by
  constructor <;> decide

/-- C7: `/start` resets the user's history to empty, is a strict no-op on
the whole store when the user has no history yet, and the next append
after a reset yields a history of length exactly 1. -/
theorem claim_start_clears (s : Store) (uid : Int) (e : Entry) :
    getHist (clearHistory s uid) uid = [] ∧
    (s uid = none → clearHistory s uid = s) ∧
    (getHist (storeAppend (clearHistory s uid) uid e) uid).length = 1 := by
  have hclear : getHist (clearHistory s uid) uid = [] := by
    unfold clearHistory
    cases hsu : s uid with
    | none => simp [getHist, hsu]
    | some l => rw [getHist_setHist]; simp
  refine ⟨hclear, ?_, ?_⟩
  · intro hnone
    unfold clearHistory
    rw [hnone]
  · rw [getHist_storeAppend_self, hclear]
    rfl

/-- Witness for C7 on the empty store, where user 5 has no history. -/
theorem claim_start_clears_witness :
    emptyStore 5 = none ∧
    getHist (clearHistory emptyStore 5) 5 = [] ∧
    clearHistory emptyStore 5 = emptyStore ∧
    (getHist (storeAppend (clearHistory emptyStore 5) 5
        { role := "user", content := "a" }) 5).length = 1 :=
  ⟨rfl,
   (claim_start_clears emptyStore 5 { role := "user", content := "a" }).1,
   (claim_start_clears emptyStore 5 { role := "user", content := "a" }).2.1 rfl,
   (claim_start_clears emptyStore 5 { role := "user", content := "a" }).2.2⟩

/-- C8: a message with absent or empty text gets the static corrective
prompt, the whole store is left untouched, and no provider request is
made. -/
theorem claim_empty_text (env : Option String) (s : Store) (uid : Int)
    (outcome : Except String String) :
    handle_text_message env s uid none outcome
      = { store := s, reply := prompt_message, request := none } ∧
    handle_text_message env s uid (some "") outcome
      = { store := s, reply := prompt_message, request := none } := by
  constructor
  · rfl
  · simp [handle_text_message]

/-- C9: every provider call uses sampling temperature 0.7 and the
configured model, and the model defaults to `google/gemini-pro-1.5` when
the environment variable is unset. -/
theorem claim_model_temperature (env : Option String) (s : Store) (uid : Int)
    (msg : String) (outcome : Except String String) :
    (get_ai_response env s uid msg outcome).request.temperature = 7/10 ∧
    (get_ai_response env s uid msg outcome).request.model = DEFAULT_MODEL env ∧
    DEFAULT_MODEL none = "google/gemini-pro-1.5" := by
  cases outcome <;> exact ⟨rfl, rfl, rfl⟩

/-- C10: in every reachable store, every stored entry has role `user` or
`assistant` — never `system`; the system entry exists only in the
assembled request list. -/
theorem claim_store_roles (s : Store) (hs : Reachable s) (uid : Int) (e : Entry)
    (he : e ∈ getHist s uid) :
    (e.role = "user" ∨ e.role = "assistant") ∧ e.role ≠ "system" := by
  have hr := roleOK_reachable hs uid e he
  refine ⟨hr, ?_⟩
  rcases hr with h | h <;> rw [h] <;> decide

/-- Witness for C10 on the store reached by one successful exchange. -/
theorem claim_store_roles_witness :
    Reachable (handle_text_message none emptyStore 1 (some "hi")
      (Except.ok "yo")).store ∧
    ({ role := "user", content := "hi" } : Entry)
      ∈ getHist (handle_text_message none emptyStore 1 (some "hi")
          (Except.ok "yo")).store 1 ∧
    ((({ role := "user", content := "hi" } : Entry).role = "user"
        ∨ ({ role := "user", content := "hi" } : Entry).role = "assistant")
      ∧ ({ role := "user", content := "hi" } : Entry).role ≠ "system") :=
  ⟨Reachable.msg none 1 (some "hi") (Except.ok "yo") Reachable.init,
   by decide,
   claim_store_roles _
     (Reachable.msg none 1 (some "hi") (Except.ok "yo") Reachable.init) 1 _
     (by decide)⟩
